import Mathlib

/-!
Verification development for the Flipbook capture-and-normalize pipeline
(`src/main.py`).  The image-geometry functions are embedded as executable
Lean functions over a simple raster-image model; the capture loop and the
CSV batch loop are embedded as trace-producing functions over abstract
collaborators (frame source, storage), mirroring the Python control flow.

Numeric conventions: Python's float arithmetic on the quantities involved
is modelled with exact rationals (ℚ); Python's `int(...)` on a nonnegative
value is truncation, i.e. the floor `⌊·⌋`.  PIL semantics used by the code:
`Image.crop(box)` always returns an image whose size is the box size
(out-of-bounds area is filled with black), `Image.new` rejects negative
sizes but accepts zero, `Image.paste(im, (0,0))` overwrites the region
covered by `im`.
-/

namespace Flowpaper

/-- An RGB pixel value. -/
abbrev Pixel : Type := ℕ × ℕ × ℕ

/-- The white fill used by `Image.new(..., "white")`. -/
def whitePixel : Pixel := (255, 255, 255)

/-- The black fill PIL uses for the out-of-bounds part of a crop. -/
def blackPixel : Pixel := (0, 0, 0)

/-- A raster image: dimensions plus a pixel lookup (only meaningful on
`x < width`, `y < height`; the model totalizes the function). -/
structure Image where
  width : ℕ
  height : ℕ
  pixel : ℕ → ℕ → Pixel

/-- PIL `Image.crop((l, u, r, b))` with an integer box: the result has size
`(r - l, b - u)` (clamped at 0), pixel `(x, y)` coming from source pixel
`(l + x, u + y)` when that is inside the source, black otherwise. -/
def Image.crop (img : Image) (l u r b : ℤ) : Image :=
  Image.mk (r - l).toNat (b - u).toNat (fun x y =>
    let sx : ℤ := l + x
    let sy : ℤ := u + y
    if 0 ≤ sx ∧ sx < img.width ∧ 0 ≤ sy ∧ sy < img.height then
      img.pixel sx.toNat sy.toNat
    else blackPixel)

/-- PIL `base.paste(im, (0, 0))`: pixels covered by `im` are overwritten,
the rest of `base` is kept. -/
def Image.paste (base im : Image) : Image :=
  Image.mk base.width base.height (fun x y =>
    if x < im.width ∧ y < im.height then im.pixel x y else base.pixel x y)

/-- PIL `Image.resize((w, h), LANCZOS)`: the output dimensions are exactly
`(w, h)`.  Resampled pixel content is modelled by nearest-neighbour
sampling; no claim in this development depends on the resampling filter,
only on the output dimensions. -/
def Image.resize (img : Image) (w h : ℕ) : Image :=
  Image.mk w h (fun x y => img.pixel (x * img.width / w) (y * img.height / h))

/-- Errors surfaced by the pipeline (spec §7) together with the PIL
`ValueError` that `Image.new` raises on a negative size. -/
inductive Err where
  | sourceUnavailable : Err
  | persistenceFailure : Err
  | valueError : Err
deriving DecidableEq, Repr

/-- PIL `Image.new("RGB", (w, h), fill)` for possibly negative requested
sizes: raises `ValueError` when a dimension is negative, silently returns
an empty image when a dimension is zero. -/
def imageNew (w h : ℤ) (fill : Pixel) : Except Err Image :=
  if w < 0 ∨ h < 0 then Except.error Err.valueError
  else Except.ok (Image.mk w.toNat h.toNat (fun _ _ => fill))

-- Constants from src/main.py lines 16-24.
def TOP : ℤ := 63
def LEFT : ℤ := 704
def BOTTOM : ℤ := 1781
def RIGHT : ℤ := 3136
/-- `SPLIT_HEIGHT = (RIGHT - LEFT) / 2`: a Python float division, exact here
because the difference 2432 is even; modelled as the exact rational. -/
def SPLIT_HEIGHT : ℚ := ((RIGHT : ℚ) - (LEFT : ℚ)) / 2

/-- An axis-aligned crop box `(left, top, right, bottom)` in integer pixel
coordinates, the form in which PIL consumes a box (a float box is rounded
to integers before cropping). -/
structure Region where
  left : ℤ
  top : ℤ
  right : ℤ
  bottom : ℤ

/-- `PAGE_LEFT = (LEFT, TOP, LEFT + SPLIT_HEIGHT, BOTTOM)` from src/main.py
line 21.  The Python tuple holds the float `1216.0` for `SPLIT_HEIGHT`;
PIL's rounding of the box is exact on it, so the box is stored with the
integer value `(RIGHT - LEFT) / 2` (exact integer division).  The theorem
for C7 ties this integer back to the rational `SPLIT_HEIGHT`. -/
def PAGE_LEFT : Region := Region.mk LEFT TOP (LEFT + (RIGHT - LEFT) / 2) BOTTOM

/-- `PAGE_RIGHT = (LEFT + SPLIT_HEIGHT, TOP, RIGHT, BOTTOM)` from
src/main.py line 22, with the same exact integer box as `PAGE_LEFT`. -/
def PAGE_RIGHT : Region := Region.mk (LEFT + (RIGHT - LEFT) / 2) TOP RIGHT BOTTOM
def BORDER_SIZE : ℕ := 50
def IMAGE_QUALITY : ℕ := 85

/-- Crop an image at a `Region` box. -/
def Image.cropRegion (img : Image) (r : Region) : Image :=
  img.crop r.left r.top r.right r.bottom

/-- `replace_borders_with_white(image, border_size)` from src/main.py lines
119-142: computes `new_width = width - 2*border_size`, creates a white
canvas of that width (PIL raising `ValueError` when it is negative), crops
the interior `(border_size, 0, width - border_size, height)` and pastes it
at `(0, 0)`. -/
def replace_borders_with_white (image : Image) (border_size : ℕ) :
    Except Err Image := do
  let width := image.width
  let height := image.height
  let new_width : ℤ := (width : ℤ) - 2 * (border_size : ℤ)
  let new_image ← imageNew new_width (height : ℤ) whitePixel
  let cropped_image :=
    image.crop (border_size : ℤ) 0 ((width : ℤ) - (border_size : ℤ)) (height : ℤ)
  return new_image.paste cropped_image

/-- `reduce_image_size(image)` from src/main.py lines 144-167: resizes to
fit A4 (2480×3508) only when a dimension exceeds it.  The Python code
computes the float `aspect_ratio = width / height` (a `ZeroDivisionError`
for a zero-height image, so theorems assume `0 < height`); on positive
heights the test `aspect_ratio > 1` is exactly `height < width`, and the
truncations `int(a4_width / aspect_ratio)` and
`int(a4_height * aspect_ratio)` of the exact ratios are the natural-number
divisions `a4_width * height / width` and `a4_height * width / height`
(a theorem below re-establishes the `⌊·⌋` formulas over ℚ). -/
def reduce_image_size (image : Image) : Image :=
  let width := image.width
  let height := image.height
  let a4_width : ℕ := 2480
  let a4_height : ℕ := 3508
  if width > a4_width ∨ height > a4_height then
    if height < width then
      let new_width : ℕ := a4_width
      let new_height : ℕ := a4_width * height / width
      image.resize new_width new_height
    else
      let new_height : ℕ := a4_height
      let new_width : ℕ := a4_height * width / height
      image.resize new_width new_height
  else
    image

/-- The two crops of src/main.py lines 189-190 packaged as the spec's
`extract(frame) -> (leftPage, rightPage)`. -/
def extract (frame : Image) : Image × Image :=
  (frame.cropRegion PAGE_LEFT, frame.cropRegion PAGE_RIGHT)

/-- Observable steps of one loop body of `capture_and_save_images`
(src/main.py lines 183-198), in source order: the 3.5-second settle sleep,
the screenshot, the two crops, the two normalizations, the two saves
(tagged with the 1-based page number), and the advancing click. -/
inductive Event where
  | sleep (seconds : ℚ) : Event
  | capture (i : ℕ) : Event
  | cropL (i : ℕ) : Event
  | cropR (i : ℕ) : Event
  | normL (i : ℕ) : Event
  | normR (i : ℕ) : Event
  | save (page : ℕ) : Event
  | advance (i : ℕ) : Event
deriving DecidableEq, Repr

/-- The external collaborators of the loop: the frame source (screenshot,
which may fail per iteration) and storage (saving `pag_{n}.jpg`, which may
fail per page).  Everything else in the loop body is deterministic. -/
structure Env where
  screenshot : ℕ → Except Err Image
  save : ℕ → Image → Except Err Unit

/-- One execution of the body of the `for` loop in `capture_and_save_images`
for loop index `i`: the emitted events in order, paired with the error that
aborted the body, if any.  Each stage runs only if all earlier stages
succeeded, exactly as an uncaught Python exception would leave the rest of
the body unexecuted. -/
def runIteration (env : Env) (i : ℕ) : List Event × Option Err :=
  -- act_page = i * 2 + 1 and next_page = i * 2 + 2 (lines 185-186) appear
  -- inline in the save events below; region_left and region_right
  -- (lines 189-190) appear inline in the two normalization calls.
  match env.screenshot i with
  | Except.error e => ([Event.sleep (7/2)], some e)
  | Except.ok full_image =>
    match replace_borders_with_white
        (reduce_image_size (full_image.cropRegion PAGE_LEFT)) BORDER_SIZE with
    | Except.error e =>
        ([Event.sleep (7/2), Event.capture i, Event.cropL i, Event.cropR i], some e)
    | Except.ok img_left =>
      match replace_borders_with_white
          (reduce_image_size (full_image.cropRegion PAGE_RIGHT)) BORDER_SIZE with
      | Except.error e =>
          ([Event.sleep (7/2), Event.capture i, Event.cropL i, Event.cropR i,
            Event.normL i], some e)
      | Except.ok img_right =>
        match env.save (i * 2 + 1) img_left with
        | Except.error e =>
            ([Event.sleep (7/2), Event.capture i, Event.cropL i, Event.cropR i,
              Event.normL i, Event.normR i], some e)
        | Except.ok _ =>
          match env.save (i * 2 + 2) img_right with
          | Except.error e =>
              ([Event.sleep (7/2), Event.capture i, Event.cropL i, Event.cropR i,
                Event.normL i, Event.normR i, Event.save (i * 2 + 1)], some e)
          | Except.ok _ =>
              ([Event.sleep (7/2), Event.capture i, Event.cropL i, Event.cropR i,
                Event.normL i, Event.normR i, Event.save (i * 2 + 1),
                Event.save (i * 2 + 2), Event.advance i], none)

/-- The loop of `capture_and_save_images` starting at loop index `i` with
`n` iterations remaining: traces accumulate in order and the first failing
body aborts the whole loop. -/
def runFrom (env : Env) (i : ℕ) : ℕ → List Event × Option Err
  | 0 => ([], none)
  | Nat.succ n =>
    match (runIteration env i).2 with
    | some e => ((runIteration env i).1, some e)
    | none =>
      ((runIteration env i).1 ++ (runFrom env (i + 1) n).1, (runFrom env (i + 1) n).2)

/-- `capture_and_save_images(driver, actions, folder, iterations)` from
src/main.py lines 169-198, as the trace of `for i in range(iterations)`. -/
def capture_and_save_images (env : Env) (iterations : ℕ) : List Event × Option Err :=
  runFrom env 0 iterations

/-- The page numbers written so far, in order of the save calls. -/
def savedPages (trace : List Event) : List ℕ :=
  trace.filterMap (fun e =>
    match e with
    | Event.save page => some page
    | _ => none)

/-- How many advancing clicks (completed loop bodies) a trace contains. -/
def advanceCount (trace : List Event) : ℕ :=
  (trace.filter (fun e =>
    match e with
    | Event.advance _ => true
    | _ => false)).length

/-- The full event list of a successful loop body for index `i`. -/
def iterTrace (i : ℕ) : List Event :=
  [Event.sleep (7/2), Event.capture i, Event.cropL i, Event.cropR i,
   Event.normL i, Event.normR i, Event.save (i * 2 + 1),
   Event.save (i * 2 + 2), Event.advance i]

/-- One CSV record `url;iterations;folder` (src/main.py line 238). -/
structure Row where
  url : String
  iterations : ℕ
  folder : String
deriving DecidableEq, Repr

/-- The CSV batch loop of `main` (src/main.py lines 234-239): rows are
processed front to back by `process_single_url`, modelled as an abstract
fallible job; an uncaught error from one row leaves all later rows
unprocessed.  Returns the rows actually processed (in order, the failing
row included) and the propagated error, if any. -/
def runBatch (job : Row → Except Err Unit) : List Row → List Row × Option Err
  | [] => ([], none)
  | r :: rs =>
    match job r with
    | Except.error e => ([r], some e)
    | Except.ok _ =>
      let rest := runBatch job rs
      (r :: rest.1, rest.2)

-- Concrete images used by counterexamples, failing inputs and witnesses.

/-- A wide image, 3000×1000, lying outside the A4 envelope. -/
def imgWide : Image := Image.mk 3000 1000 (fun _ _ => whitePixel)

/-- A tall image, 3000×3100: wider than the envelope but not taller. -/
def imgTall : Image := Image.mk 3000 3100 (fun _ _ => whitePixel)

/-- A 300×1 horizontal ramp: pixel `(x, 0)` has value `(x, 0, 0)`. -/
def imgRamp : Image := Image.mk 300 1 (fun x _ => (x, 0, 0))

/-- A 100-pixel-wide image, exactly `2 * BORDER_SIZE` wide. -/
def imgNarrow : Image := Image.mk 100 80 (fun _ _ => blackPixel)

/-- A 99-pixel-wide image, below `2 * BORDER_SIZE`. -/
def imgNarrower : Image := Image.mk 99 80 (fun _ _ => blackPixel)

/-- A full frame with the browser window size set in src/main.py line 79. -/
def frameFHD : Image := Image.mk 3840 2160 (fun _ _ => whitePixel)

/-- A 102×1 ramp image, just above the `2 * BORDER_SIZE` threshold. -/
def imgSmall : Image := Image.mk 102 1 (fun x _ => (x, 0, 0))

/-- A 5000×2000 image: wider than tall and outside the envelope. -/
def imgBig : Image := Image.mk 5000 2000 (fun _ _ => whitePixel)

/-- C2 counterexample: on the 3000×1000 input the resize branch is taken
with aspect ratio 3 > 1, and the code's `int(2480 / aspect_ratio)`
truncates `826.66...` to 826, while the claim's `round(2480 / (w/h))`
is 827.  So the claimed output height is wrong on this input. -/
theorem reduce_image_size_round_cex :
    imgWide.width > 2480 ∧
    (imgWide.width : ℚ) / (imgWide.height : ℚ) > 1 ∧
    (reduce_image_size imgWide).height = 826 ∧
    round ((2480 : ℚ) / ((imgWide.width : ℚ) / (imgWide.height : ℚ))) = 827 := by
  refine ⟨by decide, ?_, by decide, ?_⟩
  · show (3000 : ℚ) / (1000 : ℚ) > 1
    norm_num
  · show round ((2480 : ℚ) / ((3000 : ℚ) / (1000 : ℚ))) = 827
    norm_num [round_eq]

/-- C2 (amended): the resize step leaves an image fitting the envelope
unscaled, and otherwise produces width 2480 and height
`⌊2480 / (width/height)⌋` when `width/height > 1`, or height 3508 and
width `⌊3508 * (width/height)⌋` otherwise — the floor (Python `int`
truncation) of the spec's formulas, not their rounding. -/
theorem reduce_image_size_formula (img : Image) (hh : 0 < img.height) :
    (img.width ≤ 2480 ∧ img.height ≤ 3508 → reduce_image_size img = img) ∧
    (img.width > 2480 ∨ img.height > 3508 →
      ((img.width : ℚ) / (img.height : ℚ) > 1 →
        (reduce_image_size img).width = 2480 ∧
        ((reduce_image_size img).height : ℤ) =
          ⌊(2480 : ℚ) / ((img.width : ℚ) / (img.height : ℚ))⌋) ∧
      (¬ (img.width : ℚ) / (img.height : ℚ) > 1 →
        (reduce_image_size img).height = 3508 ∧
        ((reduce_image_size img).width : ℤ) =
          ⌊(3508 : ℚ) * ((img.width : ℚ) / (img.height : ℚ))⌋)) := by
  have hq : (0 : ℚ) < (img.height : ℚ) := by exact_mod_cast hh
  have haspect : (img.width : ℚ) / (img.height : ℚ) > 1 ↔ img.height < img.width := by
    rw [gt_iff_lt, one_lt_div hq, Nat.cast_lt]
  refine ⟨fun hfit => ?_, fun hover => ⟨fun hgt => ?_, fun hle => ?_⟩⟩
  · unfold reduce_image_size
    rw [if_neg]
    push_neg
    omega
  · have hlt : img.height < img.width := haspect.mp hgt
    unfold reduce_image_size
    rw [if_pos (by omega), if_pos hlt]
    refine ⟨rfl, ?_⟩
    show ((2480 * img.height / img.width : ℕ) : ℤ) = _
    rw [div_div_eq_mul_div]
    have hqpos : (0 : ℚ) ≤ (2480 : ℚ) * (img.height : ℚ) / (img.width : ℚ) := by
      positivity
    rw [← Int.natCast_floor_eq_floor hqpos]
    congr 1
    calc (2480 * img.height / img.width : ℕ)
        = ⌊((2480 * img.height : ℕ) : ℚ) / ((img.width : ℕ) : ℚ)⌋₊ :=
          (Nat.floor_div_eq_div _ _).symm
      _ = ⌊(2480 : ℚ) * (img.height : ℚ) / (img.width : ℚ)⌋₊ := by push_cast; ring_nf
  · have hge : img.width ≤ img.height := by
      have := (not_iff_not.mpr haspect).mp hle
      omega
    unfold reduce_image_size
    rw [if_pos (by omega), if_neg (by omega)]
    refine ⟨rfl, ?_⟩
    show ((3508 * img.width / img.height : ℕ) : ℤ) = _
    have hqpos : (0 : ℚ) ≤ (3508 : ℚ) * (img.width : ℚ) / (img.height : ℚ) := by
      positivity
    rw [← mul_div_assoc, ← Int.natCast_floor_eq_floor hqpos]
    congr 1
    calc (3508 * img.width / img.height : ℕ)
        = ⌊((3508 * img.width : ℕ) : ℚ) / ((img.height : ℕ) : ℚ)⌋₊ :=
          (Nat.floor_div_eq_div _ _).symm
      _ = ⌊(3508 : ℚ) * (img.width : ℚ) / (img.height : ℚ)⌋₊ := by push_cast; ring_nf

/-- Witness for the amended C2 theorem at the 5000×2000 input: the resize
branch with aspect ratio 5/2 gives 2480×992, and 992 is the floor of
2480 / (5000/2000) = 992 exactly. -/
theorem reduce_image_size_formula_witness :
    0 < imgBig.height ∧
    ((reduce_image_size imgBig).width = 2480 ∧
      ((reduce_image_size imgBig).height : ℤ) =
        ⌊(2480 : ℚ) / ((imgBig.width : ℚ) / (imgBig.height : ℚ))⌋) :=
  ⟨by decide,
    ((reduce_image_size_formula imgBig (by decide)).2 (by decide)).1
      (by show (5000 : ℚ) / (2000 : ℚ) > 1; norm_num)⟩

/-- C3 counterexample: on the 3000×3100 input (wider than the envelope,
aspect ratio below 1) the code resizes to 3394×3508 — both dimensions
GROW, and the output width 3394 exceeds the 2480 envelope bound.  The
fit-to-envelope resize is not a downscale and does not fit the envelope. -/
theorem reduce_image_size_envelope_cex :
    imgTall.width > 2480 ∧
    (reduce_image_size imgTall).width = 3394 ∧
    (reduce_image_size imgTall).height = 3508 ∧
    (reduce_image_size imgTall).width > imgTall.width ∧
    (reduce_image_size imgTall).height > imgTall.height ∧
    (reduce_image_size imgTall).width > 2480 := by decide

/-- C3 (amended): for an image that is strictly wider than tall the resize
step is a downscale — neither output dimension exceeds the input's — and
the result fits within the 2480×3508 envelope on both axes.  (When
`width ≤ height`, the resized output height is pinned to 3508, which can
exceed both the input height and, through the width `⌊3508·w/h⌋`, the
2480 envelope width, as the 3000×3100 counterexample shows.) -/
theorem reduce_image_size_downscale (img : Image) (_hh : 0 < img.height)
    (hwide : img.height < img.width) :
    (reduce_image_size img).width ≤ img.width ∧
    (reduce_image_size img).height ≤ img.height ∧
    (reduce_image_size img).width ≤ 2480 ∧
    (reduce_image_size img).height ≤ 3508 := by
  by_cases hc : img.width > 2480 ∨ img.height > 3508
  · have hw2480 : 2480 ≤ img.width := by omega
    have hwpos : 0 < img.width := by omega
    unfold reduce_image_size
    rw [if_pos hc, if_pos hwide]
    have hle : 2480 * img.height / img.width ≤ img.height := by
      calc 2480 * img.height / img.width
          ≤ 2480 * img.height / 2480 := Nat.div_le_div_left hw2480 (by norm_num)
        _ = img.height := Nat.mul_div_cancel_left _ (by norm_num)
    have hle2 : 2480 * img.height / img.width ≤ 2480 := by
      calc 2480 * img.height / img.width
          ≤ 2480 * img.width / img.width :=
            Nat.div_le_div_right (Nat.mul_le_mul_left _ (le_of_lt hwide))
        _ = 2480 := Nat.mul_div_cancel _ hwpos
    exact ⟨hw2480, hle, le_refl _, le_trans hle2 (by norm_num)⟩
  · unfold reduce_image_size
    rw [if_neg hc]
    push_neg at hc
    exact ⟨le_refl _, le_refl _, hc.1, hc.2⟩

/-- Witness for the amended C3 theorem at the 5000×2000 input: the resize
gives 2480×992, a downscale fitting the envelope. -/
theorem reduce_image_size_downscale_witness :
    0 < imgBig.height ∧ imgBig.height < imgBig.width ∧
    ((reduce_image_size imgBig).width ≤ imgBig.width ∧
      (reduce_image_size imgBig).height ≤ imgBig.height ∧
      (reduce_image_size imgBig).width ≤ 2480 ∧
      (reduce_image_size imgBig).height ≤ 3508) :=
  ⟨by decide, by decide, reduce_image_size_downscale imgBig (by decide) (by decide)⟩

/-- C4: on any input wider than `2 * BORDER_SIZE`, border replacement
succeeds with an output of width `width - 2 * BORDER_SIZE` and unchanged
height, and every output pixel `(x, y)` is the input pixel
`(x + BORDER_SIZE, y)`: the interior is preserved unchanged (the pasted
interior crop covers the whole new canvas). -/
theorem replace_borders_interior (img : Image) (hw : 2 * BORDER_SIZE < img.width) :
    ∃ out, replace_borders_with_white img BORDER_SIZE = Except.ok out ∧
      out.width = img.width - 2 * BORDER_SIZE ∧
      out.height = img.height ∧
      ∀ x y, x < out.width → y < out.height →
        out.pixel x y = img.pixel (x + BORDER_SIZE) y := by
  rw [BORDER_SIZE] at hw ⊢
  have hok : ¬ ((img.width : ℤ) - 2 * ((50 : ℕ) : ℤ) < 0 ∨ (img.height : ℤ) < 0) := by
    push_neg
    omega
  simp only [replace_borders_with_white, imageNew, if_neg hok, bind, Except.bind,
    pure, Except.pure]
  refine ⟨_, rfl, ?_, ?_, ?_⟩
  · show (((img.width : ℤ) - 2 * ((50 : ℕ) : ℤ)).toNat : ℕ) = img.width - 2 * 50
    omega
  · rfl
  · intro x y hx hy
    have hx' : x < ((img.width : ℤ) - 2 * ((50 : ℕ) : ℤ)).toNat := hx
    have hy' : y < img.height := hy
    simp only [Image.paste, Image.crop]
    rw [if_pos (by constructor <;> omega)]
    rw [if_pos (by omega)]
    have e1 : (((50 : ℕ) : ℤ) + (x : ℤ)).toNat = x + 50 := by omega
    have e2 : ((0 : ℤ) + (y : ℤ)).toNat = y := by omega
    rw [e1, e2]

/-- Witness for C4 at the 102×1 ramp image: output width 2, height 1, and
output pixel `(0, 0)` equals input pixel `(50, 0)`. -/
theorem replace_borders_interior_witness :
    2 * BORDER_SIZE < imgSmall.width ∧
    ∃ out, replace_borders_with_white imgSmall BORDER_SIZE = Except.ok out ∧
      out.width = imgSmall.width - 2 * BORDER_SIZE ∧
      out.height = imgSmall.height ∧
      ∀ x y, x < out.width → y < out.height →
        out.pixel x y = imgSmall.pixel (x + BORDER_SIZE) y :=
  ⟨by decide, replace_borders_interior imgSmall (by decide)⟩

/-- C5 divergence, at the 300×1 ramp input: the output has width 200 and
output pixels `(0,0)` and `(199,0)` — inside the columns `[0, 50)` and
`[150, 200)` that the claim requires to be uniformly white — carry the
input's interior values `(50,0,0)` and `(249,0,0)`, not white.  The pasted
crop covers the entire white canvas, so the border region is cropped away,
never blanked; this contradicts the function's own name and docstring
("replace the left and right borders of the image with a white stripe"),
whose white canvas is dead the moment the full-size crop is pasted. -/
theorem replace_borders_not_whitened :
    (replace_borders_with_white imgRamp BORDER_SIZE).toOption.map
        (fun o => (o.width, o.pixel 0 0, o.pixel 199 0)) =
      some (200, (50, 0, 0), (249, 0, 0)) ∧
    (50, 0, 0) ≠ whitePixel ∧ (249, 0, 0) ≠ whitePixel := by decide

/-- C6 divergence: the code never raises any `InvalidGeometry`-style error.
At width exactly `2 * BORDER_SIZE` (100 px, narrower than 101 px) it
silently returns a degenerate zero-width image, and below that the only
failure is PIL's `ValueError` from `Image.new`, not a geometry check of
the code's own. -/
theorem replace_borders_degenerate :
    (replace_borders_with_white imgNarrow BORDER_SIZE).toOption.map
        (fun o => (o.width, o.height)) = some (0, 80) ∧
    replace_borders_with_white imgNarrower BORDER_SIZE =
      Except.error Err.valueError := ⟨by decide, rfl⟩

/-- C7: `PAGE_LEFT` and `PAGE_RIGHT` are contiguous (`PAGE_LEFT.right =
PAGE_RIGHT.left`), non-overlapping and together span `LEFT..RIGHT`; the
integer split point agrees exactly with the rational `SPLIT_HEIGHT`; and
`extract` on a frame of the expected 3840×2160 dimensions returns two
images of equal height `BOTTOM - TOP` and equal width within 1 px of
`SPLIT_HEIGHT` (exactly 1216). -/
theorem page_regions_contiguous :
    (PAGE_LEFT.right = PAGE_RIGHT.left ∧
      PAGE_LEFT.left = LEFT ∧ PAGE_RIGHT.right = RIGHT ∧
      PAGE_LEFT.left < PAGE_LEFT.right ∧ PAGE_RIGHT.left < PAGE_RIGHT.right ∧
      ((PAGE_LEFT.right : ℚ) = (LEFT : ℚ) + SPLIT_HEIGHT)) ∧
    ∀ frame : Image, frame.width = 3840 → frame.height = 2160 →
      (extract frame).1.height = (extract frame).2.height ∧
      (extract frame).1.height = (BOTTOM - TOP).toNat ∧
      (extract frame).1.width = (extract frame).2.width ∧
      |((extract frame).1.width : ℚ) - SPLIT_HEIGHT| ≤ 1 ∧
      |((extract frame).2.width : ℚ) - SPLIT_HEIGHT| ≤ 1 := by
  constructor
  · refine ⟨by decide, by decide, by decide, by decide, by decide, ?_⟩
    show ((1920 : ℤ) : ℚ) = ((704 : ℤ) : ℚ) + SPLIT_HEIGHT
    norm_num [SPLIT_HEIGHT, LEFT, RIGHT]
  · intro frame _ _
    refine ⟨rfl, rfl, rfl, ?_, ?_⟩ <;>
      · show |((1216 : ℕ) : ℚ) - SPLIT_HEIGHT| ≤ 1
        norm_num [SPLIT_HEIGHT, LEFT, RIGHT]

/-- Witness for C7 at a concrete 3840×2160 frame. -/
theorem page_regions_contiguous_witness :
    frameFHD.width = 3840 ∧ frameFHD.height = 2160 ∧
    ((extract frameFHD).1.height = (extract frameFHD).2.height ∧
      (extract frameFHD).1.height = (BOTTOM - TOP).toNat ∧
      (extract frameFHD).1.width = (extract frameFHD).2.width ∧
      |((extract frameFHD).1.width : ℚ) - SPLIT_HEIGHT| ≤ 1 ∧
      |((extract frameFHD).2.width : ℚ) - SPLIT_HEIGHT| ≤ 1) :=
  ⟨rfl, rfl, page_regions_contiguous.2 frameFHD rfl rfl⟩

-- Structural lemmas about the capture loop.

lemma savedPages_append (a b : List Event) :
    savedPages (a ++ b) = savedPages a ++ savedPages b :=
  List.filterMap_append a b _

lemma advanceCount_append (a b : List Event) :
    advanceCount (a ++ b) = advanceCount a + advanceCount b := by
  simp [advanceCount, List.filter_append]

lemma savedPages_iterTrace (i : ℕ) :
    savedPages (iterTrace i) = [i * 2 + 1, i * 2 + 2] := rfl

lemma advanceCount_iterTrace (i : ℕ) : advanceCount (iterTrace i) = 1 := rfl

lemma runIteration_prefix (env : Env) (i : ℕ) :
    ∃ t, (runIteration env i).1 ++ t = iterTrace i := by
  unfold runIteration
  repeat' split
  all_goals exact ⟨_, rfl⟩

lemma runIteration_success (env : Env) (i : ℕ)
    (h : (runIteration env i).2 = none) : (runIteration env i).1 = iterTrace i := by
  revert h
  unfold runIteration
  repeat' split
  all_goals intro h
  all_goals first | rfl | simp at h

lemma runIteration_advance (env : Env) (i : ℕ)
    (h : Event.advance i ∈ (runIteration env i).1) : (runIteration env i).2 = none := by
  revert h
  unfold runIteration
  repeat' split
  all_goals intro h
  all_goals first | rfl | simp at h

lemma runIteration_fail_advanceCount (env : Env) (i : ℕ) (e : Err)
    (h : (runIteration env i).2 = some e) : advanceCount (runIteration env i).1 = 0 := by
  revert h
  unfold runIteration
  repeat' split
  all_goals intro h
  all_goals first | rfl | simp at h

/-- The full trace of iterations `i, i+1, ..., i+n-1`, all succeeding. -/
def expectedTrace (i : ℕ) : ℕ → List Event
  | 0 => []
  | Nat.succ n => iterTrace i ++ expectedTrace (i + 1) n

lemma expectedTrace_savedPages : ∀ (n i : ℕ),
    savedPages (expectedTrace i n) = List.range' (i * 2 + 1) (2 * n) := by
  intro n
  induction n with
  | zero => intro i; rfl
  | succ n ih =>
    intro i
    rw [show expectedTrace i (n + 1) = iterTrace i ++ expectedTrace (i + 1) n from rfl,
      savedPages_append, savedPages_iterTrace, ih (i + 1),
      show 2 * (n + 1) = 2 * n + 1 + 1 by ring, List.range'_succ, List.range'_succ,
      show (i + 1) * 2 + 1 = i * 2 + 1 + 1 + 1 by omega,
      show i * 2 + 2 = i * 2 + 1 + 1 by omega]
    rfl

lemma expectedTrace_advanceCount : ∀ (n i : ℕ),
    advanceCount (expectedTrace i n) = n := by
  intro n
  induction n with
  | zero => intro i; rfl
  | succ n ih =>
    intro i
    rw [show expectedTrace i (n + 1) = iterTrace i ++ expectedTrace (i + 1) n from rfl,
      advanceCount_append, advanceCount_iterTrace, ih (i + 1)]
    omega

lemma runFrom_success (env : Env) : ∀ (n i : ℕ),
    (runFrom env i n).2 = none →
      (runFrom env i n).1 = expectedTrace i n ∧
      ∀ j, j < n → (runIteration env (i + j)).2 = none := by
  intro n
  induction n with
  | zero => exact fun i _ => ⟨rfl, fun j hj => absurd hj (by omega)⟩
  | succ n ih =>
    intro i h
    rcases herr : (runIteration env i).2 with _ | e
    · simp only [runFrom, herr] at h ⊢
      obtain ⟨ht, hall⟩ := ih (i + 1) h
      have hevs := runIteration_success env i herr
      refine ⟨?_, ?_⟩
      · rw [hevs, ht]
        rfl
      · intro j hj
        rcases j with _ | j'
        · rw [Nat.add_zero]
          exact herr
        · have h3 := hall j' (by omega)
          rwa [show i + 1 + j' = i + (j' + 1) by omega] at h3
    · simp only [runFrom, herr] at h
      exact absurd h (by simp)

lemma runFrom_abort (env : Env) : ∀ (n i : ℕ) (e : Err),
    (runFrom env i n).2 = some e →
      ∃ k, k < n ∧ (∀ j, j < k → (runIteration env (i + j)).2 = none) ∧
        (runIteration env (i + k)).2 = some e ∧
        (runFrom env i n).1 = expectedTrace i k ++ (runIteration env (i + k)).1 := by
  intro n
  induction n with
  | zero => intro i e h; exact absurd h (by simp [runFrom])
  | succ n ih =>
    intro i e h
    rcases herr : (runIteration env i).2 with _ | e'
    · simp only [runFrom, herr] at h ⊢
      obtain ⟨k, hk, hall, hfail, htrace⟩ := ih (i + 1) e h
      have hevs := runIteration_success env i herr
      refine ⟨k + 1, by omega, ?_, ?_, ?_⟩
      · intro j hj
        rcases j with _ | j'
        · rw [Nat.add_zero]
          exact herr
        · have h3 := hall j' (by omega)
          rwa [show i + 1 + j' = i + (j' + 1) by omega] at h3
      · rwa [show i + (k + 1) = i + 1 + k by omega]
      · rw [hevs, htrace, show i + (k + 1) = i + 1 + k by omega,
          show expectedTrace i (k + 1) = iterTrace i ++ expectedTrace (i + 1) k from rfl,
          List.append_assoc]
    · simp only [runFrom, herr, Option.some.injEq] at h ⊢
      subst h
      refine ⟨0, by omega, fun j hj => absurd hj (by omega), ?_, ?_⟩
      · rw [Nat.add_zero]
        exact herr
      · rw [Nat.add_zero]
        exact (List.nil_append _).symm

-- Environments and data used by the loop witnesses.

/-- An environment where every screenshot and every save succeed. -/
def envOK : Env := Env.mk (fun _ => Except.ok frameFHD) (fun _ _ => Except.ok ())

/-- An environment whose frame source fails on loop index 1. -/
def envFail : Env :=
  Env.mk
    (fun i => if i = 1 then Except.error Err.sourceUnavailable else Except.ok frameFHD)
    (fun _ _ => Except.ok ())

/-- A batch job that fails exactly on rows with a zero iteration count. -/
def jobW : Row → Except Err Unit := fun r =>
  if r.iterations = 0 then Except.error Err.persistenceFailure else Except.ok ()

/-- Three CSV rows; the second one makes `jobW` fail. -/
def rowsW : List Row :=
  [Row.mk "u1" 2 "f1", Row.mk "u2" 0 "f2", Row.mk "u3" 5 "f3"]

/-- C1: a successful run of `capture_and_save_images` with iteration count
`N` performs exactly `N` loop iterations (advance count `N`) and saves
exactly the pages `1, 2, ..., 2*N` in that order — length `2*N`, no
duplicates, no gaps — and the 0-based iteration `i` saves exactly the page
numbers `2*i + 1` and `2*i + 2`, computed from the loop index alone. -/
theorem capture_loop_page_numbers (env : Env) (N : ℕ)
    (hsucc : (capture_and_save_images env N).2 = none) :
    advanceCount (capture_and_save_images env N).1 = N ∧
    savedPages (capture_and_save_images env N).1 = List.range' 1 (2 * N) ∧
    (savedPages (capture_and_save_images env N).1).length = 2 * N ∧
    (savedPages (capture_and_save_images env N).1).Nodup ∧
    (∀ p, p ∈ savedPages (capture_and_save_images env N).1 ↔ 1 ≤ p ∧ p ≤ 2 * N) ∧
    ∀ i, i < N → savedPages (runIteration env i).1 = [2 * i + 1, 2 * i + 2] := by
  obtain ⟨htrace, hall⟩ := runFrom_success env N 0 hsucc
  have hpages : savedPages (capture_and_save_images env N).1 = List.range' 1 (2 * N) := by
    show savedPages (runFrom env 0 N).1 = _
    rw [htrace, expectedTrace_savedPages]
  refine ⟨?_, hpages, ?_, ?_, ?_, ?_⟩
  · show advanceCount (runFrom env 0 N).1 = N
    rw [htrace, expectedTrace_advanceCount]
  · rw [hpages]; simp
  · rw [hpages]; exact List.nodup_range' _ _
  · intro p
    rw [hpages, List.mem_range'_1]
    omega
  · intro i hi
    have h1 := hall i hi
    rw [Nat.zero_add] at h1
    rw [runIteration_success env i h1, savedPages_iterTrace]
    simp [Nat.mul_comm]

/-- Witness for C1 with a concrete all-success environment and `N = 3`:
the six pages 1..6 are saved over three iterations. -/
theorem capture_loop_page_numbers_witness :
    (capture_and_save_images envOK 3).2 = none ∧
    (advanceCount (capture_and_save_images envOK 3).1 = 3 ∧
      savedPages (capture_and_save_images envOK 3).1 = List.range' 1 (2 * 3) ∧
      (savedPages (capture_and_save_images envOK 3).1).length = 2 * 3 ∧
      (savedPages (capture_and_save_images envOK 3).1).Nodup ∧
      (∀ p, p ∈ savedPages (capture_and_save_images envOK 3).1 ↔ 1 ≤ p ∧ p ≤ 2 * 3) ∧
      ∀ i, i < 3 → savedPages (runIteration envOK i).1 = [2 * i + 1, 2 * i + 2]) :=
  ⟨by decide, capture_loop_page_numbers envOK 3 (by decide)⟩

/-- C8: every loop body's trace is a prefix of the canonical stage order —
settle sleep of 3.5 seconds, one capture, left crop, right crop, left
normalization, right normalization, save of page `2*i + 1`, save of page
`2*i + 2`, and only then the advancing click — a complete body produces
exactly that order, and the advance only ever occurs in a complete body,
hence after both pages of the spread are persisted (at `IMAGE_QUALITY`
85). -/
theorem iteration_stage_order (env : Env) (i : ℕ) :
    iterTrace i =
      [Event.sleep (7/2), Event.capture i, Event.cropL i, Event.cropR i,
        Event.normL i, Event.normR i, Event.save (i * 2 + 1),
        Event.save (i * 2 + 2), Event.advance i] ∧
    (∃ t, (runIteration env i).1 ++ t = iterTrace i) ∧
    ((runIteration env i).2 = none → (runIteration env i).1 = iterTrace i) ∧
    (Event.advance i ∈ (runIteration env i).1 →
      (runIteration env i).1 = iterTrace i) ∧
    IMAGE_QUALITY = 85 :=
  ⟨rfl, runIteration_prefix env i, runIteration_success env i,
    fun h => runIteration_success env i (runIteration_advance env i h), rfl⟩

/-- Witness for C8 at a concrete environment and iteration 0: the body
succeeds and its trace is the full canonical stage order. -/
theorem iteration_stage_order_witness :
    (runIteration envOK 0).2 = none ∧ (runIteration envOK 0).1 = iterTrace 0 :=
  ⟨by decide, (iteration_stage_order envOK 0).2.2.1 (by decide)⟩

/-- C9: if a run of `capture_and_save_images` fails, there is a failing
iteration `k`: all earlier iterations ran exactly once and succeeded, the
whole trace is their full traces followed by iteration `k`'s partial trace
— nothing at all after the failure, so no retry, no later iteration, and
no page file written past the failure point — and only `k` advances
happened. -/
theorem capture_loop_abort_policy (env : Env) (N : ℕ) (e : Err)
    (hfail : (capture_and_save_images env N).2 = some e) :
    ∃ k, k < N ∧ (∀ j, j < k → (runIteration env j).2 = none) ∧
      (runIteration env k).2 = some e ∧
      (capture_and_save_images env N).1 = expectedTrace 0 k ++ (runIteration env k).1 ∧
      advanceCount (capture_and_save_images env N).1 = k := by
  obtain ⟨k, hk, hall, hfailk, htrace⟩ := runFrom_abort env N 0 e hfail
  rw [Nat.zero_add] at hfailk htrace
  refine ⟨k, hk, ?_, hfailk, htrace, ?_⟩
  · intro j hj
    have h2 := hall j hj
    rwa [Nat.zero_add] at h2
  · show advanceCount (runFrom env 0 N).1 = k
    rw [htrace, advanceCount_append, expectedTrace_advanceCount,
      runIteration_fail_advanceCount env k e hfailk]
    omega

/-- Witness for C9: with the frame source failing at iteration 1 and
`N = 3`, the run aborts with `sourceUnavailable` at `k = 1`. -/
theorem capture_loop_abort_policy_witness :
    (capture_and_save_images envFail 3).2 = some Err.sourceUnavailable ∧
    ∃ k, k < 3 ∧ (∀ j, j < k → (runIteration envFail j).2 = none) ∧
      (runIteration envFail k).2 = some Err.sourceUnavailable ∧
      (capture_and_save_images envFail 3).1 =
        expectedTrace 0 k ++ (runIteration envFail k).1 ∧
      advanceCount (capture_and_save_images envFail 3).1 = k :=
  ⟨by decide, capture_loop_abort_policy envFail 3 Err.sourceUnavailable (by decide)⟩

/-- C10: the CSV batch loop processes rows strictly in file order (the
processed rows are a prefix of the file's rows); when no job fails every
row is processed; and when a job fails, the processed rows are exactly
the rows up to and including the failing one — every earlier row's job
succeeded, and no later row is processed. -/
theorem batch_rows_order (job : Row → Except Err Unit) (rows : List Row) :
    (∃ t, (runBatch job rows).1 ++ t = rows) ∧
    ((runBatch job rows).2 = none → (runBatch job rows).1 = rows) ∧
    ∀ e, (runBatch job rows).2 = some e →
      ∃ pre r suf, rows = pre ++ r :: suf ∧
        (runBatch job rows).1 = pre ++ [r] ∧
        (∀ r', r' ∈ pre → job r' = Except.ok ()) ∧
        job r = Except.error e := by
  induction rows with
  | nil =>
    exact ⟨⟨[], rfl⟩, fun _ => rfl, fun e h => absurd h (by simp [runBatch])⟩
  | cons r rs ih =>
    simp only [runBatch]
    rcases hj : job r with e | u
    · refine ⟨⟨rs, rfl⟩, fun h => absurd h (by simp), ?_⟩
      intro e' h
      refine ⟨[], r, rs, rfl, rfl, fun r' hr' => absurd hr' (by simp), ?_⟩
      rw [hj]
      dsimp only at h
      injection h with h2
      rw [h2]
    · obtain ⟨⟨t, ht⟩, hok, hfail⟩ := ih
      refine ⟨⟨t, ?_⟩, ?_, ?_⟩
      · dsimp only
        rw [List.cons_append, ht]
      · intro h
        dsimp only at h ⊢
        rw [hok h]
      · intro e h
        dsimp only at h ⊢
        obtain ⟨pre, r', suf, hrows, hproc, hpre, hr'⟩ := hfail e h
        refine ⟨r :: pre, r', suf, ?_, ?_, ?_, hr'⟩
        · rw [List.cons_append, hrows]
        · rw [List.cons_append, hproc]
        · intro r'' hr''
          rcases List.mem_cons.mp hr'' with h2 | h2
          · rw [h2, hj]
          · exact hpre r'' h2

/-- Witness for C10: with three concrete rows whose second job fails, the
batch stops right after the second row. -/
theorem batch_rows_order_witness :
    (runBatch jobW rowsW).2 = some Err.persistenceFailure ∧
    ∃ pre r suf, rowsW = pre ++ r :: suf ∧
      (runBatch jobW rowsW).1 = pre ++ [r] ∧
      (∀ r', r' ∈ pre → jobW r' = Except.ok ()) ∧
      jobW r = Except.error Err.persistenceFailure :=
  ⟨by decide, (batch_rows_order jobW rowsW).2.2 Err.persistenceFailure (by decide)⟩

end Flowpaper
